import Mathlib

/-!
Verification of the access-governance engine of the
`aws-agentcore-enterprise-toolkit` repository.

The governed behaviour lives in the `agentcore_governance` package
(correlation contexts, audit-evidence construction, the principal catalog,
tool classification and authorization, and the revocation registry with its
SLA monitor).  Of that package only `correlation.py` ships in the source
tree; the remaining modules are pinned by the functional and integration
tests under `tests/functional/governance` and `tests/integration/governance`
and by the specification.  Definitions below therefore fall in two groups:

* faithful translations of source files that are present
  (`correlation.py`), and
* models of the missing modules, each marked `Modelled from the spec:` in
  its doc comment, built from the specification text and from the exact
  behaviour the in-tree tests pin down (for example, the audit-hash input
  format is pinned byte-for-byte by
  `test_revocation_audit.py::test_same_event_produces_same_hash`).

All machine-level values are modelled as `Nat` with explicit `% 2 ^ w`
reductions where 32-bit overflow matters (SHA-256), timestamps are
milliseconds as `Nat`, and the process-wide mutable registries are explicit
state records threaded through every operation.
-/

namespace Governance

/-! ### Hexadecimal encoding

`uuid.uuid4().hex` in `correlation.py` and `hashlib.sha256(...).hexdigest()`
in the evidence constructor both render numbers as fixed-width lowercase
hexadecimal strings.  `toHexData n w` is the `w`-digit little-endian-computed,
big-endian-printed hex rendering of `n % 16 ^ w`. -/

/-- Lowercase hex digit for a value below 16 (digits then `a`–`f`). -/
def hexChar (n : Nat) : Char :=
  if n < 10 then Char.ofNat (48 + n) else Char.ofNat (87 + n)

/-- Numeric value of a hex character produced by `hexChar`. -/
def hexVal (c : Char) : Nat :=
  if c.toNat ≥ 97 then c.toNat - 87 else c.toNat - 48

/-- Little-endian list of `w` hex digits of `n` (least significant first). -/
def hexDigitsLE (n : Nat) : Nat → List Char
  | 0 => []
  | w + 1 => hexChar (n % 16) :: hexDigitsLE (n / 16) w

/-- Fixed-width lowercase hexadecimal rendering of `n`, `w` digits,
most significant digit first. -/
def toHexData (n w : Nat) : List Char :=
  (hexDigitsLE n w).reverse

/-- Decode a little-endian hex digit list back to the number it came from. -/
def hexValLE : List Char → Nat
  | [] => 0
  | c :: rest => hexVal c + 16 * hexValLE rest

theorem hexVal_hexChar {d : Nat} (h : d < 16) : hexVal (hexChar d) = d := by
  interval_cases d <;> rfl

theorem hexValLE_hexDigitsLE (w : Nat) :
    ∀ n : Nat, n < 16 ^ w → hexValLE (hexDigitsLE n w) = n := by
  induction w with
  | zero =>
    intro n hn
    simp [Nat.pow_zero] at hn
    simp [hn, hexDigitsLE, hexValLE]
  | succ w ih =>
    intro n hn
    have hlt : n % 16 < 16 := Nat.mod_lt _ (by norm_num)
    have hdiv : n / 16 < 16 ^ w := by
      rw [Nat.div_lt_iff_lt_mul (by norm_num)]
      calc n < 16 ^ (w + 1) := hn
        _ = 16 ^ w * 16 := by ring
    simp only [hexDigitsLE, hexValLE, hexVal_hexChar hlt, ih _ hdiv]
    omega

/-- `toHexData` is injective below `16 ^ w`: the fixed-width hex rendering
loses no information. -/
theorem toHexData_injective {w n m : Nat} (hn : n < 16 ^ w) (hm : m < 16 ^ w)
    (h : toHexData n w = toHexData m w) : n = m := by
  have h2 : hexDigitsLE n w = hexDigitsLE m w := by
    have := congrArg List.reverse h
    simpa [toHexData] using this
  have := congrArg hexValLE h2
  rwa [hexValLE_hexDigitsLE w n hn, hexValLE_hexDigitsLE w m hm] at this

/-! ### Substring search

Error and reason strings are checked for the tool name and tier they must
mention.  `containsS hay needle` is a plain substring test, executable and
decidable. -/

/-- `isPre pre l` ⟺ `pre` is a prefix of `l` (on character lists). -/
def isPre : List Char → List Char → Bool
  | [], _ => true
  | p :: ps, l =>
    match l with
    | [] => false
    | c :: cs => p = c && isPre ps cs

/-- `hasSub l n` ⟺ `n` occurs contiguously inside `l`. -/
def hasSub : List Char → List Char → Bool
  | [], n => n.isEmpty
  | c :: rest, n => isPre n (c :: rest) || hasSub rest n

/-- Substring test on strings. -/
def containsS (hay needle : String) : Bool :=
  hasSub hay.data needle.data

theorem hasSub_append_right {v : List Char} (u : List Char) {n : List Char}
    (h : hasSub v n = true) : hasSub (u ++ v) n = true := by
  induction u with
  | nil => simpa using h
  | cons c rest ih =>
    simp only [List.cons_append, hasSub, Bool.or_eq_true]
    exact Or.inr ih

theorem hasSub_start {n l : List Char} (h : isPre n l = true) :
    hasSub l n = true := by
  cases l with
  | nil =>
    cases n with
    | nil => simp [hasSub]
    | cons a as => simp [isPre] at h
  | cons c rest => simp [hasSub, h]

theorem isPre_self (n : List Char) (u : List Char) : isPre n (n ++ u) = true := by
  induction n with
  | nil => simp [isPre]
  | cons a as ih => simp [isPre, ih]

/-- A needle occurring literally between two arbitrary context lists is found. -/
theorem hasSub_of_middle (u n v : List Char) : hasSub (u ++ (n ++ v)) n = true :=
  hasSub_append_right u (hasSub_start (isPre_self n v))

/-! ### Correlation context — translated from
`src/packages/agentcore-governance/src/agentcore_governance/correlation.py`.

`new_correlation_context` draws `uuid.uuid4()` and renders its 128-bit value
as `uuid4().hex`, a 32-digit lowercase hex string.  Randomness is embedded
by passing the drawn 128-bit value explicitly: `r` is the value of the
freshly generated UUID. -/

/-- A correlation context: `trace_id` plus optional annotations
(`correlation.py`, `CorrelationContext`). -/
structure CorrelationContext where
  trace_id : String
  user : Option String := none
  agent : Option String := none
  tool : Option String := none
deriving DecidableEq, Repr

/-- `uuid4().hex`: the 32-digit lowercase hex rendering of a 128-bit value. -/
def uuid4_hex (r : Nat) : String :=
  ⟨toHexData (r % 2 ^ 128) 32⟩

/-- `new_correlation_context(user, agent, tool)` from `correlation.py`:
builds a context whose `trace_id` is `uuid4().hex` of the drawn 128-bit
value `r` and yields that trace id. -/
def new_correlation_context (r : Nat) (user agent tool : Option String := none) :
    CorrelationContext :=
  { trace_id := uuid4_hex r, user := user, agent := agent, tool := tool }

/-! ### Canonical JSON serialization

Modelled from the spec: the evidence constructor hashes "the canonical JSON
serialization (keys sorted lexicographically)" of the event.  The exact
byte format is pinned by
`test_revocation_audit.py::test_same_event_produces_same_hash`, which
recomputes the hash as `sha256(json.dumps(event, sort_keys=True))` —
Python's default separators, i.e. `", "` between members and `": "` after
each key.  Event values are strings, numbers, booleans or null, so a small
JSON value type suffices.  Serializers work on `List Char` so that
concatenation reasoning stays in `List`. -/

/-- A JSON value as it appears in an audit event. -/
inductive JVal where
  | s (v : String)
  | n (v : Nat)
  | b (v : Bool)
  | nul
deriving DecidableEq, Repr

/-- Escape of one character inside a JSON string literal, exactly as
Python `json.dumps` (default `ensure_ascii=True`) renders it. -/
def escChar (c : Char) : List Char :=
  let v := c.toNat
  if v = 34 then [Char.ofNat 92, Char.ofNat 34]
  else if v = 92 then [Char.ofNat 92, Char.ofNat 92]
  else if v = 8 then [Char.ofNat 92, Char.ofNat 98]
  else if v = 9 then [Char.ofNat 92, Char.ofNat 116]
  else if v = 10 then [Char.ofNat 92, Char.ofNat 110]
  else if v = 12 then [Char.ofNat 92, Char.ofNat 102]
  else if v = 13 then [Char.ofNat 92, Char.ofNat 114]
  else if v < 32 then Char.ofNat 92 :: Char.ofNat 117 :: toHexData v 4
  else if v < 128 then [c]
  else if v < 65536 then Char.ofNat 92 :: Char.ofNat 117 :: toHexData v 4
  else
    (Char.ofNat 92 :: Char.ofNat 117 :: toHexData (55296 + (v - 65536) / 1024) 4) ++
      (Char.ofNat 92 :: Char.ofNat 117 :: toHexData (56320 + (v - 65536) % 1024) 4)

/-- JSON escape of a whole character list. -/
def jsonEscape (s : List Char) : List Char :=
  (s.map escChar).flatten

/-- A JSON string literal: quote, escaped body, quote. -/
def quoteData (s : String) : List Char :=
  Char.ofNat 34 :: (jsonEscape s.data ++ [Char.ofNat 34])

/-- Serialization of one JSON value (Python rendering: lowercase `true`,
`false`, `null`, plain decimal integers). -/
def dumpJVal : JVal → List Char
  | .s v => quoteData v
  | .n v => (toString v).data
  | .b true => [Char.ofNat 116, Char.ofNat 114, Char.ofNat 117, Char.ofNat 101]
  | .b false =>
      [Char.ofNat 102, Char.ofNat 97, Char.ofNat 108, Char.ofNat 115, Char.ofNat 101]
  | .nul => [Char.ofNat 110, Char.ofNat 117, Char.ofNat 108, Char.ofNat 108]

/-- Join chunks with a separator list. -/
def joinSep (sep : List Char) : List (List Char) → List Char
  | [] => []
  | [x] => x
  | x :: y :: ys => x ++ sep ++ joinSep sep (y :: ys)

/-- Lexicographic (code-point) comparison on character lists: exactly how
Python `sort_keys=True` orders the member keys. -/
def lexLe : List Char → List Char → Bool
  | [], _ => true
  | _ :: _, [] => false
  | a :: as, b :: bs =>
    if a.toNat < b.toNat then true
    else if b.toNat < a.toNat then false
    else lexLe as bs

/-- Insertion into a key-sorted member list. -/
def insertByKey (p : String × JVal) :
    List (String × JVal) → List (String × JVal)
  | [] => [p]
  | q :: qs => if lexLe p.1.data q.1.data then p :: q :: qs else q :: insertByKey p qs

/-- Insertion sort of object members by key. -/
def sortByKey : List (String × JVal) → List (String × JVal)
  | [] => []
  | p :: ps => insertByKey p (sortByKey ps)

/-- One serialized object member, with the given key-value separator. -/
def memberData (colon : List Char) (p : String × JVal) : List Char :=
  quoteData p.1 ++ colon ++ dumpJVal p.2

/-- `json.dumps(obj, sort_keys=True)` with the given separators. -/
def dumpsWith (comma colon : List Char) (ps : List (String × JVal)) : List Char :=
  Char.ofNat 123 ::
    (joinSep comma ((sortByKey ps).map (memberData colon)) ++ [Char.ofNat 125])

/-- The hash-input serialization of the implementation (pinned by the test):
Python default separators, a space after `,` and after `:`. -/
def canonicalJsonData (ps : List (String × JVal)) : List Char :=
  dumpsWith [Char.ofNat 44, Char.ofNat 32] [Char.ofNat 58, Char.ofNat 32] ps

/-- The serialization the spec describes: keys sorted, no extraneous
whitespace (`separators=(",", ":")`). -/
def compactJsonData (ps : List (String × JVal)) : List Char :=
  dumpsWith [Char.ofNat 44] [Char.ofNat 58] ps

/-! ### UTF-8 and SHA-256

Modelled from the spec: `integrity_hash` is the hex-encoded SHA-256 of the
serialized event, i.e. `hashlib.sha256(hash_input.encode()).hexdigest()`.
SHA-256 is the FIPS 180-4 function, computed over `Nat` with explicit
`% 2 ^ 32` word reductions. -/

/-- UTF-8 encoding of one character (`str.encode()` in Python). -/
def utf8Char (c : Char) : List Nat :=
  let v := c.toNat
  if v < 128 then [v]
  else if v < 2048 then [192 + v / 64, 128 + v % 64]
  else if v < 65536 then [224 + v / 4096, 128 + v / 64 % 64, 128 + v % 64]
  else [240 + v / 262144, 128 + v / 4096 % 64, 128 + v / 64 % 64, 128 + v % 64]

/-- UTF-8 bytes of a character list. -/
def utf8Data (s : List Char) : List Nat :=
  (s.map utf8Char).flatten

/-- 2^32, the SHA-256 word modulus. -/
def M32 : Nat := 4294967296

/-- Right rotation of a 32-bit word by `k`. -/
def rotr (k x : Nat) : Nat :=
  (x / 2 ^ k + x % 2 ^ k * 2 ^ (32 - k)) % M32

/-- SHA-256 Ch: `(x ∧ y) ⊕ (¬x ∧ z)` on 32-bit words. -/
def shaCh (x y z : Nat) : Nat :=
  (x &&& y) ^^^ ((x ^^^ 4294967295) &&& z)

/-- SHA-256 Maj: bitwise majority. -/
def shaMaj (x y z : Nat) : Nat :=
  ((x &&& y) ^^^ (x &&& z)) ^^^ (y &&& z)

/-- Σ₀. -/
def bsig0 (x : Nat) : Nat := (rotr 2 x ^^^ rotr 13 x) ^^^ rotr 22 x

/-- Σ₁. -/
def bsig1 (x : Nat) : Nat := (rotr 6 x ^^^ rotr 11 x) ^^^ rotr 25 x

/-- σ₀. -/
def ssig0 (x : Nat) : Nat := (rotr 7 x ^^^ rotr 18 x) ^^^ x / 2 ^ 3

/-- σ₁. -/
def ssig1 (x : Nat) : Nat := (rotr 17 x ^^^ rotr 19 x) ^^^ x / 2 ^ 10

/-- The 64 SHA-256 round constants (fractional cube roots of the first 64
primes, FIPS 180-4 §4.2.2). -/
def K256 : List Nat :=
  [1116352408, 1899447441, 3049323471, 3921009573, 961987163, 1508970993,
   2453635748, 2870763221, 3624381080, 310598401, 607225278, 1426881987,
   1925078388, 2162078206, 2614888103, 3248222580, 3835390401, 4022224774,
   264347078, 604807628, 770255983, 1249150122, 1555081692, 1996064986,
   2554220882, 2821834349, 2952996808, 3210313671, 3336571891, 3584528711,
   113926993, 338241895, 666307205, 773529912, 1294757372, 1396182291,
   1695183700, 1986661051, 2177026350, 2456956037, 2730485921, 2820302411,
   3259730800, 3345764771, 3516065817, 3600352804, 4094571909, 275423344,
   430227734, 506948616, 659060556, 883997877, 958139571, 1322822218,
   1537002063, 1747873779, 1955562222, 2024104815, 2227730452, 2361852424,
   2428436474, 2756734187, 3204031479, 3329325298]

/-- The 8 initial hash words (fractional square roots of the first 8
primes, FIPS 180-4 §5.3.3). -/
def H256 : List Nat :=
  [1779033703, 3144134277, 1013904242, 2773480762, 1359893119, 2600822924,
   528734635, 1541459225]

/-- SHA-256 padding: append `0x80`, zeros, and the 64-bit big-endian bit
length, to a multiple of 64 bytes. -/
def padBytes (msg : List Nat) : List Nat :=
  let L := msg.length
  msg ++ 128 :: (List.replicate ((64 - (L + 9) % 64) % 64) 0 ++
    (List.range 8).map (fun i => 8 * L / 2 ^ (8 * (7 - i)) % 256))

/-- Big-endian packing of bytes into 32-bit words. -/
def toWords : List Nat → List Nat
  | a :: b :: c :: d :: rest => (((a * 256 + b) * 256 + c) * 256 + d) :: toWords rest
  | _ => []

/-- One message-schedule extension step, on the reversed (newest-first)
schedule so far: `W_t = σ₁ W_{t-2} + W_{t-7} + σ₀ W_{t-15} + W_{t-16}`. -/
def schedStep (acc : List Nat) : List Nat :=
  (ssig1 (acc.getD 1 0) + acc.getD 6 0 + ssig0 (acc.getD 14 0) + acc.getD 15 0) % M32
    :: acc

/-- The full 64-word message schedule of one 16-word block. -/
def schedule (block : List Nat) : List Nat :=
  ((schedStep^[48]) block.reverse).reverse

/-- One compression round on the working variables `[a,b,c,d,e,f,g,h]`. -/
def roundStep (s : List Nat) (kw : Nat × Nat) : List Nat :=
  match s with
  | [a, b, c, d, e, f, g, h] =>
    let t1 := (h + bsig1 e + shaCh e f g + kw.1 + kw.2) % M32
    let t2 := (bsig0 a + shaMaj a b c) % M32
    [(t1 + t2) % M32, a, b, c, (d + t1) % M32, e, f, g]
  | _ => s

/-- Compress one 16-word block into the running hash. -/
def compress (hs block : List Nat) : List Nat :=
  let out := (K256.zip (schedule block)).foldl roundStep hs
  List.zipWith (fun a b => (a + b) % M32) hs out

/-- Process `n` 16-word blocks from the word stream. -/
def processN : Nat → List Nat → List Nat → List Nat
  | 0, hs, _ => hs
  | n + 1, hs, ws => processN n (compress hs (ws.take 16)) (ws.drop 16)

/-- The SHA-256 digest of a byte list, as a single 256-bit number. -/
def sha256Nat (msg : List Nat) : Nat :=
  let ws := toWords (padBytes msg)
  (processN (ws.length / 16) H256 ws).foldl (fun acc h => acc * M32 + h) 0 % 2 ^ 256

/-- `hashlib.sha256(bytes).hexdigest()`: 64 lowercase hex digits. -/
def sha256hexData (msg : List Nat) : List Char :=
  toHexData (sha256Nat msg) 64

/-- `hashlib.sha256(s.encode()).hexdigest()` on a string. -/
def sha256hex (s : String) : String :=
  ⟨sha256hexData (utf8Data s.data)⟩

/-! ### Evidence constructor

Modelled from the spec: `agentcore_governance/evidence.py` is not in the
source tree.  Each `construct_<event>_event` function accepts the event's
required fields plus optional fields with stated defaults (`reason` defaults
to the empty string, `initiated_by` to `"unknown"`), stamps `timestamp`,
reads `correlation_id` from the ambient correlation context (both passed
explicitly here), and computes `integrity_hash` as the hex SHA-256 of the
canonical JSON serialization of every other field.  The serialization
format (keys sorted, Python default separators) is pinned by
`test_revocation_audit.py::test_same_event_produces_same_hash`; the field
sets of the three revocation event kinds are pinned by the structure tests
in the same file. -/

/-- An audit event: its fields, and the `integrity_hash` sealed over them. -/
structure AuditEvent where
  fields : List (String × JVal)
  integrity_hash : String
deriving DecidableEq, Repr

/-- Seal a field set: `integrity_hash` is the hex SHA-256 of the canonical
JSON serialization of all fields except `integrity_hash` itself. -/
def sealEvent (fields : List (String × JVal)) : AuditEvent :=
  ⟨fields, ⟨sha256hexData (utf8Data (canonicalJsonData fields))⟩⟩

/-- Arguments of `construct_revocation_request_event`, with the spec's
defaults; `correlation_id` and `timestamp` stand for the ambient
correlation context and the stamped clock. -/
@[ext]
structure ReqArgs where
  revocation_id : String
  subject_type : String
  subject_id : String
  scope : String
  reason : String := ""
  initiated_by : String := "unknown"
  correlation_id : String
  timestamp : String
deriving DecidableEq, Repr

/-- Field set of a `revocation_requested` event, in construction order. -/
def reqFieldsOf (a : ReqArgs) : List (String × JVal) :=
  [("event_type", .s "revocation_requested"),
   ("revocation_id", .s a.revocation_id),
   ("subject_type", .s a.subject_type),
   ("subject_id", .s a.subject_id),
   ("scope", .s a.scope),
   ("reason", .s a.reason),
   ("initiated_by", .s a.initiated_by),
   ("correlation_id", .s a.correlation_id),
   ("timestamp", .s a.timestamp)]

/-- `construct_revocation_request_event`. -/
def construct_revocation_request_event (a : ReqArgs) : AuditEvent :=
  sealEvent (reqFieldsOf a)

/-- Field set of a `revocation_propagated` event. -/
def propFieldsOf (revocation_id : String) (propagation_latency_ms : Nat)
    (sla_met : Bool) (correlation_id timestamp : String) :
    List (String × JVal) :=
  [("event_type", .s "revocation_propagated"),
   ("revocation_id", .s revocation_id),
   ("propagation_latency_ms", .n propagation_latency_ms),
   ("sla_met", .b sla_met),
   ("correlation_id", .s correlation_id),
   ("timestamp", .s timestamp)]

/-- `construct_revocation_propagated_event`. -/
def construct_revocation_propagated_event (revocation_id : String)
    (propagation_latency_ms : Nat) (sla_met : Bool)
    (correlation_id timestamp : String) : AuditEvent :=
  sealEvent (propFieldsOf revocation_id propagation_latency_ms sla_met
    correlation_id timestamp)

/-- Field set of a `revocation_access_denied` event (`revocation_id` may be
absent, serialized as `null`). -/
def deniedFieldsOf (subject_type subject_id attempted_action : String)
    (revocation_id : Option String) (correlation_id timestamp : String) :
    List (String × JVal) :=
  [("event_type", .s "revocation_access_denied"),
   ("subject_type", .s subject_type),
   ("subject_id", .s subject_id),
   ("attempted_action", .s attempted_action),
   ("revocation_id", match revocation_id with | none => .nul | some r => .s r),
   ("correlation_id", .s correlation_id),
   ("timestamp", .s timestamp)]

/-- `construct_revocation_access_denied_event`. -/
def construct_revocation_access_denied_event
    (subject_type subject_id attempted_action : String)
    (revocation_id : Option String) (correlation_id timestamp : String) :
    AuditEvent :=
  sealEvent (deniedFieldsOf subject_type subject_id attempted_action
    revocation_id correlation_id timestamp)

/-! ### Revocation registry and SLA monitor

Modelled from the spec: `agentcore_governance/revocation.py` is not in the
source tree; its contract is §4.6 of the spec and
`test_revocation_sla.py`.  The process-wide `_revocations_registry` is an
explicit state record; `uuid`-generated revocation ids are modelled by a
counter; clock readings (`now`, in milliseconds) are passed explicitly.
The spec allows propagation of an already-PROPAGATED record to "be rejected
or be a no-op"; the model takes the no-op reading (the record is left
untouched). -/

/-- Revocation lifecycle state: `PENDING --(propagate)--> PROPAGATED`. -/
inductive RevStatus where
  | pending
  | propagated
deriving DecidableEq, Repr

/-- A `RevocationRecord` (spec §3): fields set once `PROPAGATED` are
`Option`-valued and absent while `PENDING`. -/
structure RevRecord where
  revocation_id : String
  subject_type : String
  subject_id : String
  scope : String
  status : RevStatus
  requested_at : Nat
  propagated_at : Option Nat
  propagation_latency_ms : Option Nat
  sla_met : Option Bool
deriving DecidableEq, Repr

/-- The revocation registry state: the records, the id-generation counter,
and the (overridable) SLA target in milliseconds
(`DEFAULT_SLA_TARGET_SECONDS * 1000`, default 300 000 ms). -/
structure RevState where
  registry : List RevRecord
  next_id : Nat
  sla_target_ms : Nat := 300000
deriving DecidableEq, Repr

/-- The empty registry. -/
def RevState.empty : RevState :=
  { registry := [], next_id := 0 }

/-- `create_revocation_request(payload)`: records a new `PENDING` record
with `requested_at = now` and returns the generated revocation id. -/
def create_revocation_request (subjectType subjectId scope : String)
    (now : Nat) (s : RevState) : String × RevState :=
  let rid := "rev-" ++ toString s.next_id
  (rid,
   { s with
     registry := s.registry ++
       [{ revocation_id := rid, subject_type := subjectType,
          subject_id := subjectId, scope := scope, status := .pending,
          requested_at := now, propagated_at := none,
          propagation_latency_ms := none, sla_met := none }],
     next_id := s.next_id + 1 })

/-- `is_subject_revoked(subject_type, subject_id)`: true exactly when some
record for that pair exists, whatever its state (`PENDING` already
blocks). -/
def is_subject_revoked (subject_type subject_id : String) (s : RevState) :
    Bool :=
  s.registry.any fun r =>
    r.subject_type = subject_type && r.subject_id = subject_id

/-- `mark_revocation_propagated(revocation_id)`: transitions the matching
`PENDING` record to `PROPAGATED`, setting `propagated_at = now`,
`propagation_latency_ms = now - requested_at` and
`sla_met = (latency ≤ sla_target_ms)`.  A record that is already
`PROPAGATED` (and every non-matching record) is left untouched. -/
def mark_revocation_propagated (rid : String) (now : Nat) (s : RevState) :
    RevState :=
  { s with
    registry := s.registry.map fun r =>
      if r.revocation_id = rid ∧ r.status = .pending then
        { r with
          status := .propagated,
          propagated_at := some now,
          propagation_latency_ms := some (now - r.requested_at),
          sla_met := some (decide (now - r.requested_at ≤ s.sla_target_ms)) }
      else r }

/-- `get_revocation_status(revocation_id)`. -/
def get_revocation_status (rid : String) (s : RevState) : Option RevRecord :=
  s.registry.find? fun r => r.revocation_id = rid

/-- Aggregate SLA metrics (`compute_sla_metrics`).  The compliance rate is
kept exact as a rational. -/
structure SlaMetrics where
  total_revocations : Nat
  sla_met_count : Nat
  sla_breached_count : Nat
  sla_compliance_rate : ℚ
deriving DecidableEq, Repr

/-- `compute_sla_metrics()`: aggregates only `PROPAGATED` records;
`sla_compliance_rate = 100 * sla_met_count / total_revocations`, and `0`
(with no division) when there are no propagated records. -/
def compute_sla_metrics (s : RevState) : SlaMetrics :=
  let props := s.registry.filter fun r => r.status = .propagated
  let met := (props.filter fun r => r.sla_met = some true).length
  let breached := (props.filter fun r => r.sla_met = some false).length
  { total_revocations := props.length,
    sla_met_count := met,
    sla_breached_count := breached,
    sla_compliance_rate :=
      if props.length = 0 then 0 else 100 * (met : ℚ) / props.length }

/-! ### Classification registry

Modelled from the spec: `agentcore_governance/classification.py` is not in
the source tree; its contract is §4.4 of the spec and
`test_phase2_authorization.py::test_classification_enforcement`.  The
registry is a read-only mapping tool id → tier; an approval record carries
`approved_by`, `approved_at` and `justification`. -/

/-- Sensitivity tier of a tool. -/
inductive Tier where
  | low
  | moderate
  | sensitive
deriving DecidableEq, Repr

/-- An `ApprovalRecord` (spec §3). -/
structure Approval where
  approved_by : String
  approved_at : String
  justification : String
deriving DecidableEq, Repr

/-- `validate_tool_authorization(tool_id, approval_record, registry)`:
LOW/MODERATE are always authorized, SENSITIVE needs an approval record,
and a tool absent from the registry fails closed. -/
def validate_tool_authorization (tool_id : String)
    (approval_record : Option Approval) (registry : List (String × Tier)) :
    Bool × String :=
  match registry.lookup tool_id with
  | none =>
    (false, "Tool " ++ tool_id ++ " not found in classification registry - denied by default")
  | some .low => (true, "Tool " ++ tool_id ++ " classified LOW - authorized")
  | some .moderate => (true, "Tool " ++ tool_id ++ " classified MODERATE - authorized")
  | some .sensitive =>
    match approval_record with
    | none =>
      (false, "Tool " ++ tool_id ++ " classified SENSITIVE - approval record required")
    | some ap =>
      (true, "Tool " ++ tool_id ++ " classified SENSITIVE - approved by " ++ ap.approved_by)

/-! ### Authorization store

Modelled from the spec: `agentcore_governance/authorization.py` and
`agentcore_governance/api/authorization_handlers.py` are not in the source
tree; their contract is §4.5 of the spec and
`test_phase2_authorization.py`.  The process-wide store is an explicit
state record: per-agent authorized tool lists plus a per-agent append-only
history. -/

/-- One history entry appended by every `set_authorized_tools` call. -/
structure HistEntry where
  tools : List String
  reason : String
  timestamp : Nat
deriving DecidableEq, Repr

/-- The authorization store: per-agent authorized tools and history. -/
structure AuthStore where
  agents : List (String × List String)
  history : List (String × List HistEntry)
deriving DecidableEq, Repr

/-- `clear_authorization_store()`. -/
def clear_authorization_store : AuthStore :=
  { agents := [], history := [] }

/-- Replace (or add) the value stored under a key. -/
def setKey {α : Type} (k : String) (v : α) :
    List (String × α) → List (String × α)
  | [] => [(k, v)]
  | (k2, v2) :: rest =>
    if k2 = k then (k, v) :: rest else (k2, v2) :: setKey k v rest

/-- `get_authorized_tools(agent_id)`: empty for a never-seen agent. -/
def get_authorized_tools (agent_id : String) (st : AuthStore) : List String :=
  (st.agents.lookup agent_id).getD []

/-- The change report returned by `set_authorized_tools`. -/
structure ChangeReport where
  agent_id : String
  added : List String
  removed : List String
  unchanged : List String
deriving DecidableEq, Repr

/-- `set_authorized_tools(agent_id, tools, reason)`: replaces the agent's
authorized set with `tools`, appends one history entry, and reports
`added = new − old`, `removed = old − new`, `unchanged = new ∩ old`
(input-order-stable renderings). -/
def set_authorized_tools (agent_id : String) (tools : List String)
    (reason : String) (now : Nat) (st : AuthStore) :
    ChangeReport × AuthStore :=
  let old := get_authorized_tools agent_id st
  ({ agent_id := agent_id,
     added := tools.filter fun t => !old.contains t,
     removed := old.filter fun t => !tools.contains t,
     unchanged := tools.filter fun t => old.contains t },
   { agents := setKey agent_id tools st.agents,
     history := setKey agent_id
       ((st.history.lookup agent_id).getD [] ++
         [{ tools := tools, reason := reason, timestamp := now }])
       st.history })

/-- `generate_differential_report(agent_id)`: the full ordered history. -/
def generate_differential_report (agent_id : String) (st : AuthStore) :
    List HistEntry :=
  (st.history.lookup agent_id).getD []

/-- The audit event attached to an authorization decision
(`event_type = "authorization_decision"`). -/
structure DecisionEvent where
  event_type : String
  agent_id : String
  tool_id : String
  effect : String
  correlation_id : String
deriving DecidableEq, Repr

/-- Response envelope of the handler `update_agent_tools`. -/
structure UpdateResponse where
  success : Bool
  authorized_tools : List String
  changes : Option ChangeReport
  audit_events : List DecisionEvent
  error : Option String
deriving DecidableEq, Repr

/-- First tool of the target set that fails classification validation,
with the failure reason. -/
def firstFailure (tools : List String)
    (approval_records : List (String × Approval))
    (registry : List (String × Tier)) : Option (String × String) :=
  tools.findSome? fun t =>
    match validate_tool_authorization t (approval_records.lookup t) registry with
    | (true, _) => none
    | (false, why) => some (t, why)

/-- Handler `update_agent_tools`: when `validate_classification` is true,
every tool of the target set is checked first; on any failure the whole
update is refused and the store is returned unchanged, with an error
naming the offending tool.  On success the store is replaced via
`set_authorized_tools` and one `authorization_decision` audit event is
emitted per tool of the final authorized set. -/
def update_agent_tools (agent_id : String) (tools : List String)
    (reason : String) (validate_classification : Bool)
    (registry : List (String × Tier))
    (approval_records : List (String × Approval)) (correlation_id : String)
    (now : Nat) (st : AuthStore) : UpdateResponse × AuthStore :=
  match (if validate_classification then
          firstFailure tools approval_records registry
        else none) with
  | some (_, why) =>
    ({ success := false, authorized_tools := [], changes := none,
       audit_events := [],
       error := some why }, st)
  | none =>
    let (report, st2) := set_authorized_tools agent_id tools reason now st
    ({ success := true, authorized_tools := tools, changes := some report,
       audit_events := tools.map fun t =>
         { event_type := "authorization_decision", agent_id := agent_id,
           tool_id := t, effect := "allow", correlation_id := correlation_id },
       error := none }, st2)

/-- Response of the handler `check_tool_access`. -/
structure AccessDecision where
  agent_id : String
  tool_id : String
  effect : String
  authorized : Bool
  reason : String
  audit_event : DecisionEvent
deriving DecidableEq, Repr

/-- Handler `check_tool_access(agent_id, tool_id, correlation_id,
registry)`: `effect = "allow"` iff the tool is currently in the agent's
authorized set, else `effect = "deny"` with reason
`"<tool> NOT in authorized list"`; one `authorization_decision` audit event
per call. -/
def check_tool_access (agent_id tool_id correlation_id : String)
    (_registry : List (String × Tier)) (st : AuthStore) : AccessDecision :=
  let tools := get_authorized_tools agent_id st
  let ok := tools.contains tool_id
  { agent_id := agent_id, tool_id := tool_id,
    effect := if ok then "allow" else "deny",
    authorized := ok,
    reason :=
      if ok then "Tool " ++ tool_id ++ " authorized"
      else tool_id ++ " NOT in authorized list",
    audit_event :=
      { event_type := "authorization_decision", agent_id := agent_id,
        tool_id := tool_id, effect := if ok then "allow" else "deny",
        correlation_id := correlation_id } }

/-! ### Principal catalog

Modelled from the spec: `agentcore_governance/analyzer.py`,
`catalog.py` and `api/catalog_handlers.py` are not in the source tree;
their contract is §4.3 of the spec and `test_phase1_catalog.py`.  Only the
ownership analysis is modelled here (the parts claim C9 is about):
a principal is an orphan iff its tags miss the `Owner` key, and the
handler reports an orphan with `owner = "UNASSIGNED"`. -/

/-- A principal record (fields relevant to ownership analysis). -/
structure Principal where
  arn : String
  name : String
  tags : List (String × String)
  last_used : Option Nat
deriving DecidableEq, Repr

/-- `detect_orphan_principals(principals)`: those whose `tags` mapping is
missing the `Owner` key, whatever other tags are present. -/
def detect_orphan_principals (principals : List Principal) : List Principal :=
  principals.filter fun p => (p.tags.lookup "Owner").isNone

/-- A principal as reported by the handler layer, with resolved owner. -/
structure EnrichedPrincipal where
  arn : String
  name : String
  owner : String
  is_orphan : Bool
  tags : List (String × String)
deriving DecidableEq, Repr

/-- Handler-level ownership resolution: an orphan is reported with
`owner = "UNASSIGNED"`, a non-orphan with the `Owner` tag value verbatim. -/
def enrichPrincipal (p : Principal) : EnrichedPrincipal :=
  match p.tags.lookup "Owner" with
  | none =>
    { arn := p.arn, name := p.name, owner := "UNASSIGNED", is_orphan := true,
      tags := p.tags }
  | some v =>
    { arn := p.arn, name := p.name, owner := v, is_orphan := false,
      tags := p.tags }

/-- Response of the handler `get_principals`. -/
structure PrincipalsResponse where
  success : Bool
  principals : List EnrichedPrincipal
  page : Nat
  page_size : Nat
  total_count : Nat
  total_pages : Nat
deriving DecidableEq, Repr

/-- Does a principal pass the optional environment / owner filters? -/
def passesFilters (environments : Option (List String))
    (owner : Option String) (p : Principal) : Bool :=
  (match environments with
   | none => true
   | some envs =>
     match p.tags.lookup "Environment" with
     | none => false
     | some e => envs.contains e) &&
  (match owner with
   | none => true
   | some o => p.tags.lookup "Owner" = some o)

/-- Handler `get_principals`: filters, enriches ownership, and paginates
with 1-based pages and `total_pages = ceil(total_count / page_size)`. -/
def get_principals (principals : List Principal)
    (environments : Option (List String)) (owner : Option String)
    (page page_size : Nat) : PrincipalsResponse :=
  let kept := principals.filter (passesFilters environments owner)
  let enriched := kept.map enrichPrincipal
  { success := true,
    principals := (enriched.drop ((page - 1) * page_size)).take page_size,
    page := page, page_size := page_size,
    total_count := kept.length,
    total_pages := (kept.length + page_size - 1) / page_size }

/-! ### Serialization-analysis helpers

`interQuoted` is an alternative view of the canonical serialization of a
`revocation_requested` event: literal segments interleaved with the
(escaped) field values, each value wrapped in the two quotes the
serializer emits around it.  The view makes the serialization's
injectivity in the field values provable by parsing up to the next
quote. -/

/-- Interleave literal segments with quote-wrapped payload chunks:
`l₀ ++ "v₀" ++ l₁ ++ "v₁" ++ … ++ lₙ`. -/
def interQuoted : List (List Char) → List (List Char) → List Char
  | [], _ => []
  | l :: _, [] => l
  | l :: ls, v :: vs =>
    l ++ (Char.ofNat 34 :: (v ++ (Char.ofNat 34 :: interQuoted ls vs)))

/-- A character the JSON serializer passes through unescaped: printable
ASCII other than the quote and the backslash. -/
def plainChar (c : Char) : Bool :=
  32 ≤ c.toNat && c.toNat < 128 && c.toNat ≠ 34 && c.toNat ≠ 92

/-- A string of passthrough characters. -/
def plainStr (s : String) : Bool :=
  s.data.all plainChar

/-- An ASCII-only character list (one UTF-8 byte per character). -/
def asciiData (l : List Char) : Bool :=
  l.all fun c => c.toNat < 128

/-- The literal segments of the canonical serialization of a
`revocation_requested` event, around the eight variable field values in
sorted-key order. -/
def reqLits : List (List Char) :=
  ["\x7b\"correlation_id\": ".data,
   ", \"event_type\": \"revocation_requested\", \"initiated_by\": ".data,
   ", \"reason\": ".data,
   ", \"revocation_id\": ".data,
   ", \"scope\": ".data,
   ", \"subject_id\": ".data,
   ", \"subject_type\": ".data,
   ", \"timestamp\": ".data,
   "\x7d".data]

/-- The escaped variable field values of a `revocation_requested` event,
in sorted-key order. -/
def reqVals (a : ReqArgs) : List (List Char) :=
  [jsonEscape a.correlation_id.data, jsonEscape a.initiated_by.data,
   jsonEscape a.reason.data, jsonEscape a.revocation_id.data,
   jsonEscape a.scope.data, jsonEscape a.subject_id.data,
   jsonEscape a.subject_type.data, jsonEscape a.timestamp.data]

/-- All eight fields of a request event are passthrough strings. -/
def reqPlain (a : ReqArgs) : Bool :=
  plainStr a.revocation_id && plainStr a.subject_type &&
    plainStr a.subject_id && plainStr a.scope && plainStr a.reason &&
    plainStr a.initiated_by && plainStr a.correlation_id &&
    plainStr a.timestamp

/-! ### Concrete fixtures used by witness theorems -/

/-- A concrete `revocation_requested` argument tuple (the one the audit
tests construct). -/
def reqArgsFix : ReqArgs :=
  { revocation_id := "rev-123", subject_type := "user",
    subject_id := "user-123", scope := "user_access", reason := "",
    initiated_by := "unknown", correlation_id := "corr-1",
    timestamp := "2025-11-05T10:00:00Z" }

/-- A small classification registry (mirrors the tool-registry fixture of
the functional tests). -/
def regFix : List (String × Tier) :=
  [("get_product_info", .low), ("check_warranty", .moderate),
   ("update_customer_record", .sensitive)]

/-- A concrete approval record. -/
def aprFix : Approval :=
  { approved_by := "security-team", approved_at := "2025-11-01T10:00:00Z",
    justification := "workflow" }

/-- A principal with an `Owner` tag. -/
def ownedPrinFix : Principal :=
  { arn := "arn:role-1", name := "customer-support-agent-dev",
    tags := [("Owner", "platform-team"), ("Environment", "dev")],
    last_used := some 100 }

/-- A principal missing the `Owner` tag. -/
def orphanPrinFix : Principal :=
  { arn := "arn:role-2", name := "orphan-test-role",
    tags := [("Purpose", "testing")], last_used := none }

/-- An already-propagated revocation record. -/
def propRecFix : RevRecord :=
  { revocation_id := "rev-0", subject_type := "user", subject_id := "user-123",
    scope := "user_access", status := .propagated, requested_at := 0,
    propagated_at := some 5, propagation_latency_ms := some 5,
    sla_met := some true }

/-- A registry state holding exactly one propagated record. -/
def propStateFix : RevState :=
  { registry := [propRecFix], next_id := 1 }

/-! ### General helper lemmas -/

theorem hexDigitsLE_length (n w : Nat) : (hexDigitsLE n w).length = w := by
  induction w generalizing n with
  | zero => rfl
  | succ w ih => simp [hexDigitsLE, ih]

theorem toHexData_length (n w : Nat) : (toHexData n w).length = w := by
  simp [toHexData, hexDigitsLE_length]

/-- A substring exhibited by an explicit split of the haystack is found. -/
theorem containsS_of_split (hay needle : String) (u v : List Char)
    (h : hay.data = u ++ (needle.data ++ v)) : containsS hay needle = true := by
  unfold containsS
  rw [h]
  exact hasSub_of_middle _ _ _

/-- Splitting a literal segment in front of a variable tail. -/
theorem append_split3 {l c1 c2 c3 t : List Char} (h : l = c1 ++ (c2 ++ c3)) :
    l ++ t = c1 ++ (c2 ++ (c3 ++ t)) := by
  subst h
  simp [List.append_assoc]

theorem uuid4_hex_inj {a b : Nat} (ha : a < 2 ^ 128) (hb : b < 2 ^ 128)
    (h : uuid4_hex a = uuid4_hex b) : a = b := by
  have h2 : toHexData (a % 2 ^ 128) 32 = toHexData (b % 2 ^ 128) 32 :=
    congrArg String.data h
  have hpow : (16 : Nat) ^ 32 = 2 ^ 128 := by norm_num
  have ha2 : a % 2 ^ 128 < 16 ^ 32 := by
    rw [hpow]; exact Nat.mod_lt _ (by positivity)
  have hb2 : b % 2 ^ 128 < 16 ^ 32 := by
    rw [hpow]; exact Nat.mod_lt _ (by positivity)
  have := toHexData_injective ha2 hb2 h2
  rwa [Nat.mod_eq_of_lt ha, Nat.mod_eq_of_lt hb] at this

theorem lookup_setKey {α : Type} (k : String) (v : α) (l : List (String × α)) :
    (setKey k v l).lookup k = some v := by
  induction l with
  | nil => simp [setKey, List.lookup]
  | cons p rest ih =>
    by_cases h : p.1 = k
    · simp [setKey, h, List.lookup]
    · have : (k == p.1) = false := by
        simp [beq_iff_eq]
        exact fun he => h he.symm
      simp [setKey, h, List.lookup, this, ih]

/-! ### C10 — correlation trace identifiers -/

/-- C10: every `new_correlation_context` call yields a 32-hex-digit trace
id that is an injective image of the drawn 128-bit UUID value, so any
sequence of invocations whose 128-bit draws are pairwise distinct (the
overwhelmingly probable case, e.g. 1000 sequential calls) yields pairwise
distinct trace ids. -/
theorem new_correlation_context_distinct (rs : List Nat)
    (hb : ∀ r ∈ rs, r < 2 ^ 128) (hd : rs.Pairwise (· ≠ ·)) :
    (∀ r ∈ rs, (new_correlation_context r).trace_id.length = 32) ∧
    (rs.map fun r => (new_correlation_context r).trace_id).Pairwise (· ≠ ·) := by
  constructor
  · intro r _
    simp [new_correlation_context, uuid4_hex, String.length, toHexData_length]
  · refine List.pairwise_map.mpr (hd.imp_of_mem ?_)
    intro a b ha2 hb2 hne heq
    exact hne (uuid4_hex_inj (hb a ha2) (hb b hb2) heq)

/-- Witness for C10 at the concrete draw list `[0, 1, 2]`. -/
theorem new_correlation_context_distinct_witness :
    ((∀ r ∈ ([0, 1, 2] : List Nat), r < 2 ^ 128) ∧
      ([0, 1, 2] : List Nat).Pairwise (· ≠ ·)) ∧
    ((∀ r ∈ ([0, 1, 2] : List Nat),
        (new_correlation_context r).trace_id.length = 32) ∧
      (([0, 1, 2] : List Nat).map fun r =>
        (new_correlation_context r).trace_id).Pairwise (· ≠ ·)) :=
  ⟨⟨by decide, by decide⟩,
   new_correlation_context_distinct [0, 1, 2] (by decide) (by decide)⟩

/-! ### C4 — classification enforcement -/

/-- C4: `validate_tool_authorization` authorizes LOW and MODERATE tools
(reason stating the tier), denies an unapproved SENSITIVE tool (reason
naming the tier and that approval is required), authorizes an approved
SENSITIVE tool (reason stating the tier and the approval), and fails
closed on a tool absent from the registry. -/
theorem validate_tool_authorization_spec (registry : List (String × Tier))
    (tool : String) (ap : Option Approval) :
    (registry.lookup tool = some .low →
      (validate_tool_authorization tool ap registry).1 = true ∧
      containsS (validate_tool_authorization tool ap registry).2 "LOW" = true) ∧
    (registry.lookup tool = some .moderate →
      (validate_tool_authorization tool ap registry).1 = true ∧
      containsS (validate_tool_authorization tool ap registry).2 "MODERATE" = true) ∧
    (registry.lookup tool = some .sensitive → ap = none →
      (validate_tool_authorization tool ap registry).1 = false ∧
      containsS (validate_tool_authorization tool ap registry).2 "SENSITIVE" = true ∧
      containsS (validate_tool_authorization tool ap registry).2 "approval" = true) ∧
    (∀ a, registry.lookup tool = some .sensitive → ap = some a →
      (validate_tool_authorization tool ap registry).1 = true ∧
      containsS (validate_tool_authorization tool ap registry).2 "SENSITIVE" = true ∧
      containsS (validate_tool_authorization tool ap registry).2 "approved" = true) ∧
    (registry.lookup tool = none →
      (validate_tool_authorization tool ap registry).1 = false) := by
  refine ⟨fun h => ?_, fun h => ?_, fun h ha => ?_, fun a h ha => ?_, fun h => ?_⟩
  · refine ⟨by simp [validate_tool_authorization, h], ?_⟩
    refine containsS_of_split _ _ ("Tool ".data ++ (tool.data ++ " classified ".data))
      " - authorized".data ?_
    simp only [validate_tool_authorization, h, String.data_append, List.append_assoc]
    exact congrArg (fun x => "Tool ".data ++ (tool.data ++ x)) (by decide)
  · refine ⟨by simp [validate_tool_authorization, h], ?_⟩
    refine containsS_of_split _ _ ("Tool ".data ++ (tool.data ++ " classified ".data))
      " - authorized".data ?_
    simp only [validate_tool_authorization, h, String.data_append, List.append_assoc]
    exact congrArg (fun x => "Tool ".data ++ (tool.data ++ x)) (by decide)
  · subst ha
    refine ⟨by simp [validate_tool_authorization, h], ?_, ?_⟩
    · refine containsS_of_split _ _ ("Tool ".data ++ (tool.data ++ " classified ".data))
        " - approval record required".data ?_
      simp only [validate_tool_authorization, h, String.data_append, List.append_assoc]
      exact congrArg (fun x => "Tool ".data ++ (tool.data ++ x)) (by decide)
    · refine containsS_of_split _ _
        ("Tool ".data ++ (tool.data ++ " classified SENSITIVE - ".data))
        " record required".data ?_
      simp only [validate_tool_authorization, h, String.data_append, List.append_assoc]
      exact congrArg (fun x => "Tool ".data ++ (tool.data ++ x)) (by decide)
  · subst ha
    refine ⟨by simp [validate_tool_authorization, h], ?_, ?_⟩
    · refine containsS_of_split _ _ ("Tool ".data ++ (tool.data ++ " classified ".data))
        (" - approved by ".data ++ a.approved_by.data) ?_
      simp only [validate_tool_authorization, h, String.data_append,
        List.append_assoc]
      exact congrArg (fun x => "Tool ".data ++ x)
        (congrArg (fun y => tool.data ++ y) (append_split3 (by decide)))
    · refine containsS_of_split _ _
        ("Tool ".data ++ (tool.data ++ " classified SENSITIVE - ".data))
        (" by ".data ++ a.approved_by.data) ?_
      simp only [validate_tool_authorization, h, String.data_append,
        List.append_assoc]
      exact congrArg (fun x => "Tool ".data ++ x)
        (congrArg (fun y => tool.data ++ y) (append_split3 (by decide)))
  · simp [validate_tool_authorization, h]

/-- Witness for C4 on a three-entry registry, exercising all five cases. -/
theorem validate_tool_authorization_spec_witness :
    (regFix.lookup "get_product_info" = some .low ∧
      (validate_tool_authorization "get_product_info" none regFix).1 = true ∧
      containsS (validate_tool_authorization "get_product_info" none regFix).2 "LOW"
        = true) ∧
    (regFix.lookup "update_customer_record" = some .sensitive ∧
      (validate_tool_authorization "update_customer_record" none regFix).1 = false ∧
      containsS (validate_tool_authorization "update_customer_record" none regFix).2
        "approval" = true) ∧
    ((validate_tool_authorization "update_customer_record" (some aprFix) regFix).1
        = true) ∧
    ((validate_tool_authorization "unknown_tool" none regFix).1 = false) := by
  refine ⟨⟨by decide, ?_, ?_⟩, ⟨by decide, ?_, ?_⟩, ?_, ?_⟩
  · exact ((validate_tool_authorization_spec regFix "get_product_info" none).1
      (by decide)).1
  · exact ((validate_tool_authorization_spec regFix "get_product_info" none).1
      (by decide)).2
  · exact (((validate_tool_authorization_spec regFix "update_customer_record"
      none).2.2.1 (by decide) rfl)).1
  · exact (((validate_tool_authorization_spec regFix "update_customer_record"
      none).2.2.1 (by decide) rfl)).2.2
  · exact (((validate_tool_authorization_spec regFix "update_customer_record"
      (some aprFix)).2.2.2.1 aprFix (by decide) rfl)).1
  · exact ((validate_tool_authorization_spec regFix "unknown_tool" none).2.2.2.2
      (by decide))

/-- A `set_authorized_tools` call on a store already holding exactly
`tools` for the agent reports no additions and no removals, and the whole
set as unchanged. -/
theorem set_authorized_tools_repeat (st2 : AuthStore) (agent : String)
    (tools : List String) (reason2 : String) (now2 : Nat)
    (h : get_authorized_tools agent st2 = tools) :
    (set_authorized_tools agent tools reason2 now2 st2).1.added = [] ∧
    (set_authorized_tools agent tools reason2 now2 st2).1.removed = [] ∧
    (set_authorized_tools agent tools reason2 now2 st2).1.unchanged = tools := by
  refine ⟨?_, ?_, ?_⟩
  · simp only [set_authorized_tools, h]
    exact List.filter_eq_nil_iff.mpr fun t ht => by simp [List.elem_iff, ht]
  · simp only [set_authorized_tools, h]
    exact List.filter_eq_nil_iff.mpr fun t ht => by simp [List.elem_iff, ht]
  · simp only [set_authorized_tools, h]
    exact List.filter_eq_self.mpr fun t ht => by simp [List.elem_iff, ht]

/-! ### C6 — differential change reporting -/

/-- C6: `set_authorized_tools` replaces the agent's set with `tools` and
reports exactly `added = new − old`, `removed = old − new`,
`unchanged = new ∩ old`; an immediate repeat call with the same tool set
yields `added = []`, `removed = []` and `unchanged` equal to the full
set. -/
theorem set_authorized_tools_spec (st : AuthStore) (agent : String)
    (tools : List String) (reason reason2 : String) (now now2 : Nat) :
    (∀ t, t ∈ (set_authorized_tools agent tools reason now st).1.added ↔
      t ∈ tools ∧ t ∉ get_authorized_tools agent st) ∧
    (∀ t, t ∈ (set_authorized_tools agent tools reason now st).1.removed ↔
      t ∈ get_authorized_tools agent st ∧ t ∉ tools) ∧
    (∀ t, t ∈ (set_authorized_tools agent tools reason now st).1.unchanged ↔
      t ∈ tools ∧ t ∈ get_authorized_tools agent st) ∧
    get_authorized_tools agent
      (set_authorized_tools agent tools reason now st).2 = tools ∧
    (set_authorized_tools agent tools reason2 now2
      (set_authorized_tools agent tools reason now st).2).1.added = [] ∧
    (set_authorized_tools agent tools reason2 now2
      (set_authorized_tools agent tools reason now st).2).1.removed = [] ∧
    (set_authorized_tools agent tools reason2 now2
      (set_authorized_tools agent tools reason now st).2).1.unchanged = tools := by
  have hget : get_authorized_tools agent
      (set_authorized_tools agent tools reason now st).2 = tools := by
    simp [set_authorized_tools, get_authorized_tools, lookup_setKey]
  refine ⟨?_, ?_, ?_, hget, ?_, ?_, ?_⟩
  · intro t
    simp [set_authorized_tools, List.mem_filter, List.elem_iff]
  · intro t
    simp [set_authorized_tools, List.mem_filter, List.elem_iff]
  · intro t
    simp [set_authorized_tools, List.mem_filter, List.elem_iff]
  · exact (set_authorized_tools_repeat _ _ tools reason2 now2 hget).1
  · exact (set_authorized_tools_repeat _ _ tools reason2 now2 hget).2.1
  · exact (set_authorized_tools_repeat _ _ tools reason2 now2 hget).2.2

/-- Witness for C6: authorizing `{t1,t2,t3}` then `{t1,t3,t4}` on a fresh
store, as in the differential-tracking test. -/
theorem set_authorized_tools_spec_witness :
    letI st1 :=
      (set_authorized_tools "tracked-agent" ["tool1", "tool2", "tool3"]
        "Initial setup" 0 clear_authorization_store).2
    (set_authorized_tools "tracked-agent" ["tool1", "tool3", "tool4"]
      "Swap tool2 for tool4" 1 st1).1.added = ["tool4"] ∧
    (set_authorized_tools "tracked-agent" ["tool1", "tool3", "tool4"]
      "Swap tool2 for tool4" 1 st1).1.removed = ["tool2"] ∧
    (set_authorized_tools "tracked-agent" ["tool1", "tool3", "tool4"]
      "Swap tool2 for tool4" 1 st1).1.unchanged = ["tool1", "tool3"] ∧
    ("tool4" ∈ (set_authorized_tools "tracked-agent" ["tool1", "tool3", "tool4"]
      "Swap tool2 for tool4" 1 st1).1.added ↔
      "tool4" ∈ (["tool1", "tool3", "tool4"] : List String) ∧
      "tool4" ∉ get_authorized_tools "tracked-agent" st1) ∧
    (set_authorized_tools "tracked-agent" ["tool1", "tool3", "tool4"] "again" 2
      (set_authorized_tools "tracked-agent" ["tool1", "tool3", "tool4"]
        "Swap tool2 for tool4" 1 st1).2).1.added = [] ∧
    (set_authorized_tools "tracked-agent" ["tool1", "tool3", "tool4"] "again" 2
      (set_authorized_tools "tracked-agent" ["tool1", "tool3", "tool4"]
        "Swap tool2 for tool4" 1 st1).2).1.unchanged =
      ["tool1", "tool3", "tool4"] :=
  ⟨by decide, by decide, by decide,
   (set_authorized_tools_spec _ "tracked-agent" ["tool1", "tool3", "tool4"]
     "Swap tool2 for tool4" "again" 1 2).1 "tool4",
   (set_authorized_tools_spec _ "tracked-agent" ["tool1", "tool3", "tool4"]
     "Swap tool2 for tool4" "again" 1 2).2.2.2.2.1,
   (set_authorized_tools_spec _ "tracked-agent" ["tool1", "tool3", "tool4"]
     "Swap tool2 for tool4" "again" 1 2).2.2.2.2.2.2⟩

/-! ### C7 — access checks deny unauthorized tools -/

/-- C7: `check_tool_access` returns `effect = "allow"` iff the tool is in
the agent's current authorized set, otherwise `effect = "deny"` with
reason `"<tool> NOT in authorized list"`; and after an
`update_agent_tools` call whose new set omits the tool, an immediately
subsequent check returns `effect = "deny"`. -/
theorem check_tool_access_spec (st : AuthStore)
    (agent tool corr : String) (registry : List (String × Tier)) :
    ((check_tool_access agent tool corr registry st).effect = "allow" ↔
      tool ∈ get_authorized_tools agent st) ∧
    (tool ∉ get_authorized_tools agent st →
      (check_tool_access agent tool corr registry st).effect = "deny" ∧
      (check_tool_access agent tool corr registry st).reason =
        tool ++ " NOT in authorized list") ∧
    (∀ tools2 reason2 approvals corr2 now2, tool ∉ tools2 →
      (check_tool_access agent tool corr registry
        (update_agent_tools agent tools2 reason2 false registry approvals
          corr2 now2 st).2).effect = "deny") := by
  refine ⟨?_, fun hmem => ?_, fun tools2 reason2 approvals corr2 now2 hmem => ?_⟩
  · by_cases hmem : tool ∈ get_authorized_tools agent st
    · simp [check_tool_access, List.elem_iff, hmem]
    · have : (get_authorized_tools agent st).contains tool = false := by
        simp [List.elem_iff, hmem]
      simp [check_tool_access, this, hmem]
  · have : (get_authorized_tools agent st).contains tool = false := by
      simp [List.elem_iff, hmem]
    simp [check_tool_access, this]
    exact ⟨hmem, fun hc => absurd hc hmem⟩
  · have hupd : (update_agent_tools agent tools2 reason2 false registry approvals
        corr2 now2 st).2 =
        (set_authorized_tools agent tools2 reason2 now2 st).2 := by
      simp [update_agent_tools]
    have hget : get_authorized_tools agent
        (set_authorized_tools agent tools2 reason2 now2 st).2 = tools2 := by
      simp [set_authorized_tools, get_authorized_tools, lookup_setKey]
    have : tools2.contains tool = false := by
      simp [List.elem_iff, hmem]
    simp [check_tool_access, hupd, hget, this]
    exact hmem

/-- Witness for C7: after removing `check_warranty` from the agent's set
via the handler, an immediate access check denies it. -/
theorem check_tool_access_spec_witness :
    letI st1 :=
      (set_authorized_tools "criterion-test-agent"
        ["get_product_info", "check_warranty", "web_search"]
        "Initial authorization" 0 clear_authorization_store).2
    ("check_warranty" ∉ (["get_product_info", "web_search"] : List String)) ∧
    (check_tool_access "criterion-test-agent" "check_warranty"
      "criterion-test-correlation" regFix
      (update_agent_tools "criterion-test-agent"
        ["get_product_info", "web_search"] "Removing warranty check" false
        regFix [] "criterion-test-correlation" 1 st1).2).effect = "deny" :=
  ⟨by decide,
   (check_tool_access_spec _ "criterion-test-agent" "check_warranty"
     "criterion-test-correlation" regFix).2.2
     ["get_product_info", "web_search"] "Removing warranty check" []
     "criterion-test-correlation" 1 (by decide)⟩

/-! ### C9 — orphan detection and ownership reporting -/

/-- C9: `detect_orphan_principals` returns exactly the principals whose
tags miss the `Owner` key; the handler layer reports an orphan with
`owner = "UNASSIGNED"` and a non-orphan with the `Owner` tag value
verbatim, and every reported principal is the enrichment of an input
principal. -/
theorem detect_orphan_principals_spec (ps : List Principal)
    (environments : Option (List String)) (owner : Option String)
    (page page_size : Nat) :
    (∀ p, p ∈ detect_orphan_principals ps ↔
      p ∈ ps ∧ p.tags.lookup "Owner" = none) ∧
    (∀ p, p.tags.lookup "Owner" = none →
      (enrichPrincipal p).owner = "UNASSIGNED" ∧
      (enrichPrincipal p).is_orphan = true) ∧
    (∀ p v, p.tags.lookup "Owner" = some v →
      (enrichPrincipal p).owner = v ∧ (enrichPrincipal p).is_orphan = false) ∧
    (∀ q ∈ (get_principals ps environments owner page page_size).principals,
      ∃ p ∈ ps, q = enrichPrincipal p) := by
  refine ⟨?_, ?_, ?_, ?_⟩
  · intro p
    simp [detect_orphan_principals, List.mem_filter, Option.isNone_iff_eq_none]
  · intro p h
    simp [enrichPrincipal, h]
  · intro p v h
    simp [enrichPrincipal, h]
  · intro q hq
    simp only [get_principals] at hq
    have hq2 := List.mem_of_mem_drop (List.mem_of_mem_take hq)
    obtain ⟨p, hp, rfl⟩ := List.mem_map.mp hq2
    exact ⟨p, (List.mem_filter.mp hp).1, rfl⟩

/-- Witness for C9 on a two-principal inventory with one orphan. -/
theorem detect_orphan_principals_spec_witness :
    (orphanPrinFix ∈ detect_orphan_principals [ownedPrinFix, orphanPrinFix] ↔
      orphanPrinFix ∈ [ownedPrinFix, orphanPrinFix] ∧
      orphanPrinFix.tags.lookup "Owner" = none) ∧
    ((enrichPrincipal orphanPrinFix).owner = "UNASSIGNED" ∧
      (enrichPrincipal orphanPrinFix).is_orphan = true) ∧
    ((enrichPrincipal ownedPrinFix).owner = "platform-team" ∧
      (enrichPrincipal ownedPrinFix).is_orphan = false) ∧
    (∀ q ∈ (get_principals [ownedPrinFix, orphanPrinFix] none none 1 100).principals,
      ∃ p ∈ [ownedPrinFix, orphanPrinFix], q = enrichPrincipal p) :=
  ⟨(detect_orphan_principals_spec [ownedPrinFix, orphanPrinFix] none none 1 100).1
    orphanPrinFix,
   (detect_orphan_principals_spec [ownedPrinFix, orphanPrinFix] none none 1
     100).2.1 orphanPrinFix (by decide),
   (detect_orphan_principals_spec [ownedPrinFix, orphanPrinFix] none none 1
     100).2.2.1 ownedPrinFix "platform-team" (by decide),
   (detect_orphan_principals_spec [ownedPrinFix, orphanPrinFix] none none 1
     100).2.2.2⟩

/-! ### C5 — PROPAGATED is terminal -/

/-- C5: a `PROPAGATED` record is never modified by
`mark_revocation_propagated`, and marking the same revocation id a second
time is a no-op on the whole state, so `propagated_at` and `sla_met` are
never overwritten. -/
theorem mark_revocation_propagated_terminal (s : RevState) (rid : String)
    (t1 t2 : Nat) :
    (∀ r ∈ s.registry, r.status = .propagated →
      r ∈ (mark_revocation_propagated rid t1 s).registry) ∧
    mark_revocation_propagated rid t2 (mark_revocation_propagated rid t1 s) =
      mark_revocation_propagated rid t1 s := by
  constructor
  · intro r hr hstat
    have hfix :
        (if r.revocation_id = rid ∧ r.status = RevStatus.pending then
          { r with
            status := RevStatus.propagated,
            propagated_at := some t1,
            propagation_latency_ms := some (t1 - r.requested_at),
            sla_met := some (decide (t1 - r.requested_at ≤ s.sla_target_ms)) }
        else r) = r := by
      simp [hstat]
    simp only [mark_revocation_propagated]
    exact hfix ▸ List.mem_map_of_mem _ hr
  · simp only [mark_revocation_propagated, List.map_map]
    congr 1
    refine List.map_congr_left ?_
    intro r _
    by_cases h1 : r.revocation_id = rid ∧ r.status = RevStatus.pending
    · simp [Function.comp, h1]
    · simp [Function.comp, h1]

/-- Witness for C5: the propagated fixture record survives another
`mark_revocation_propagated` call untouched. -/
theorem mark_revocation_propagated_terminal_witness :
    (propRecFix ∈ propStateFix.registry ∧ propRecFix.status = .propagated) ∧
    propRecFix ∈ (mark_revocation_propagated "rev-0" 99 propStateFix).registry ∧
    mark_revocation_propagated "rev-0" 100
      (mark_revocation_propagated "rev-0" 99 propStateFix) =
      mark_revocation_propagated "rev-0" 99 propStateFix :=
  ⟨⟨by decide, by decide⟩,
   (mark_revocation_propagated_terminal propStateFix "rev-0" 99 100).1
     propRecFix (by decide) (by decide),
   (mark_revocation_propagated_terminal propStateFix "rev-0" 99 100).2⟩

/-! ### C8 — SLA metrics cover only propagated records -/

/-- C8: `compute_sla_metrics` is unchanged by adding a `PENDING` record
(`create_revocation_request`), yields all-zero metrics (rate `0`, no
division) when no record is `PROPAGATED`, and otherwise computes
`sla_compliance_rate = 100 * sla_met_count / total_revocations`. -/
theorem compute_sla_metrics_spec (s : RevState) (stype sid scope : String)
    (now : Nat) :
    compute_sla_metrics (create_revocation_request stype sid scope now s).2 =
      compute_sla_metrics s ∧
    ((s.registry.filter fun r => r.status = .propagated) = [] →
      compute_sla_metrics s =
        { total_revocations := 0, sla_met_count := 0, sla_breached_count := 0,
          sla_compliance_rate := 0 }) ∧
    ((compute_sla_metrics s).total_revocations ≠ 0 →
      (compute_sla_metrics s).sla_compliance_rate =
        100 * ((compute_sla_metrics s).sla_met_count : ℚ) /
          ((compute_sla_metrics s).total_revocations : ℚ)) := by
  refine ⟨?_, fun h => ?_, fun h => ?_⟩
  · simp [compute_sla_metrics, create_revocation_request, List.filter_append]
  · simp [compute_sla_metrics, h]
  · simp only [compute_sla_metrics] at h ⊢
    rw [if_neg h]

/-- Witness for C8: the empty registry yields zero metrics, and the
one-propagated-record registry satisfies the rate formula. -/
theorem compute_sla_metrics_spec_witness :
    ((RevState.empty.registry.filter fun r => r.status = .propagated) = [] ∧
      compute_sla_metrics RevState.empty =
        { total_revocations := 0, sla_met_count := 0, sla_breached_count := 0,
          sla_compliance_rate := 0 }) ∧
    ((compute_sla_metrics propStateFix).total_revocations ≠ 0 ∧
      (compute_sla_metrics propStateFix).sla_compliance_rate =
        100 * ((compute_sla_metrics propStateFix).sla_met_count : ℚ) /
          ((compute_sla_metrics propStateFix).total_revocations : ℚ)) ∧
    compute_sla_metrics
      (create_revocation_request "user" "user-pending" "user_access" 7
        propStateFix).2 = compute_sla_metrics propStateFix :=
  ⟨⟨by decide,
    (compute_sla_metrics_spec RevState.empty "user" "u" "s" 0).2.1 (by decide)⟩,
   ⟨by decide,
    (compute_sla_metrics_spec propStateFix "user" "u" "s" 0).2.2 (by decide)⟩,
   (compute_sla_metrics_spec propStateFix "user" "user-pending" "user_access"
     7).1⟩

/-! ### C1 — revocation blocks immediately and is pair-scoped -/

/-- Propagation never changes which subjects are revoked: the map inside
`mark_revocation_propagated` preserves the subject fields of every
record. -/
theorem is_subject_revoked_mark (a b rid : String) (t : Nat) (s : RevState) :
    is_subject_revoked a b (mark_revocation_propagated rid t s) =
      is_subject_revoked a b s := by
  obtain ⟨reg, nid, sla⟩ := s
  simp only [is_subject_revoked, mark_revocation_propagated, List.any_map]
  induction reg with
  | nil => rfl
  | cons r rest ih =>
    simp only [List.any_cons, ih]
    by_cases h1 : r.revocation_id = rid ∧ r.status = RevStatus.pending
    · simp [Function.comp, h1]
    · simp [Function.comp, h1]

/-- C1: from the instant `create_revocation_request` records the pair, and
while the record is still `PENDING`, `is_subject_revoked` is true for
exactly that pair; it stays true after `mark_revocation_propagated`; and
any other pair (same id with another type, or another id) that was not
revoked before stays unrevoked throughout. -/
theorem is_subject_revoked_spec (s : RevState) (st si sc : String)
    (t1 t2 : Nat) :
    is_subject_revoked st si (create_revocation_request st si sc t1 s).2 =
      true ∧
    (∃ r ∈ (create_revocation_request st si sc t1 s).2.registry,
      r.revocation_id = (create_revocation_request st si sc t1 s).1 ∧
      r.subject_type = st ∧ r.subject_id = si ∧ r.status = .pending) ∧
    is_subject_revoked st si
      (mark_revocation_propagated (create_revocation_request st si sc t1 s).1
        t2 (create_revocation_request st si sc t1 s).2) = true ∧
    (∀ st2 si2, st2 ≠ st ∨ si2 ≠ si →
      is_subject_revoked st2 si2 s = false →
      is_subject_revoked st2 si2 (create_revocation_request st si sc t1 s).2 =
        false ∧
      is_subject_revoked st2 si2
        (mark_revocation_propagated (create_revocation_request st si sc t1 s).1
          t2 (create_revocation_request st si sc t1 s).2) = false) := by
  have h1 : is_subject_revoked st si
      (create_revocation_request st si sc t1 s).2 = true := by
    simp [is_subject_revoked, create_revocation_request, List.any_append]
  refine ⟨h1, ?_, ?_, ?_⟩
  · simp only [create_revocation_request]
    exact ⟨_, List.mem_append_right _ (List.mem_singleton.mpr rfl),
      rfl, rfl, rfl, rfl⟩
  · rw [is_subject_revoked_mark]
    exact h1
  · intro st2 si2 hne hbase
    have hc : is_subject_revoked st2 si2
        (create_revocation_request st si sc t1 s).2 = false := by
      simp only [is_subject_revoked, create_revocation_request,
        List.any_append] at hbase ⊢
      rcases hne with h | h
      · simp only [hbase, Bool.false_or, List.any_cons, List.any_nil,
          Bool.or_false, Bool.and_eq_false_iff, decide_eq_false_iff_not]
        exact Or.inl fun he => h he.symm
      · simp only [hbase, Bool.false_or, List.any_cons, List.any_nil,
          Bool.or_false, Bool.and_eq_false_iff, decide_eq_false_iff_not]
        exact Or.inr fun he => h he.symm
    exact ⟨hc, by rw [is_subject_revoked_mark]; exact hc⟩

/-- Witness for C1: revoking `("user","123")` on the empty registry blocks
that pair immediately and after propagation, while `("integration","123")`
and `("user","456")` stay unrevoked throughout. -/
theorem is_subject_revoked_spec_witness :
    is_subject_revoked "user" "123"
      (create_revocation_request "user" "123" "user_access" 5
        RevState.empty).2 = true ∧
    is_subject_revoked "user" "123"
      (mark_revocation_propagated
        (create_revocation_request "user" "123" "user_access" 5
          RevState.empty).1 9
        (create_revocation_request "user" "123" "user_access" 5
          RevState.empty).2) = true ∧
    (is_subject_revoked "integration" "123"
        (create_revocation_request "user" "123" "user_access" 5
          RevState.empty).2 = false ∧
      is_subject_revoked "integration" "123"
        (mark_revocation_propagated
          (create_revocation_request "user" "123" "user_access" 5
            RevState.empty).1 9
          (create_revocation_request "user" "123" "user_access" 5
            RevState.empty).2) = false) ∧
    (is_subject_revoked "user" "456"
        (create_revocation_request "user" "123" "user_access" 5
          RevState.empty).2 = false ∧
      is_subject_revoked "user" "456"
        (mark_revocation_propagated
          (create_revocation_request "user" "123" "user_access" 5
            RevState.empty).1 9
          (create_revocation_request "user" "123" "user_access" 5
            RevState.empty).2) = false) :=
  ⟨(is_subject_revoked_spec RevState.empty "user" "123" "user_access" 5 9).1,
   (is_subject_revoked_spec RevState.empty "user" "123" "user_access" 5
     9).2.2.1,
   (is_subject_revoked_spec RevState.empty "user" "123" "user_access" 5
     9).2.2.2 "integration" "123" (Or.inl (by decide)) (by decide),
   (is_subject_revoked_spec RevState.empty "user" "123" "user_access" 5
     9).2.2.2 "user" "456" (Or.inr (by decide)) (by decide)⟩

/-! ### C3 — atomic rejection of unapproved SENSITIVE tools -/

/-- When every target tool is present in the registry and some SENSITIVE
tool lacks an approval record, the first validation failure is exactly
such a tool, with the approval-required reason. -/
theorem firstFailure_sensitive (tools : List String)
    (approvals : List (String × Approval)) (registry : List (String × Tier))
    (hreg : ∀ t ∈ tools, (registry.lookup t).isSome = true)
    (hx : ∃ t ∈ tools, registry.lookup t = some .sensitive ∧
      approvals.lookup t = none) :
    ∃ t ∈ tools, registry.lookup t = some .sensitive ∧
      approvals.lookup t = none ∧
      firstFailure tools approvals registry =
        some (t, "Tool " ++ t ++
          " classified SENSITIVE - approval record required") := by
  induction tools with
  | nil => simp at hx
  | cons t rest ih =>
    have hsome := hreg t (List.mem_cons_self t rest)
    cases hlook : registry.lookup t with
    | none => rw [hlook] at hsome; simp at hsome
    | some tier =>
      have hrest : ∀ x ∈ rest, (registry.lookup x).isSome = true :=
        fun x hx2 => hreg x (List.mem_cons_of_mem t hx2)
      cases tier with
      | low =>
        obtain ⟨u, hu, hu1, hu2, hueq⟩ := ih hrest (by
          rcases hx with ⟨u, hu, hu1, hu2⟩
          rcases List.mem_cons.mp hu with rfl | hmem
          · rw [hlook] at hu1; exact absurd hu1 (by simp)
          · exact ⟨u, hmem, hu1, hu2⟩)
        refine ⟨u, List.mem_cons_of_mem t hu, hu1, hu2, ?_⟩
        rw [show firstFailure (t :: rest) approvals registry =
          firstFailure rest approvals registry from by
            simp [firstFailure, validate_tool_authorization, hlook]]
        exact hueq
      | moderate =>
        obtain ⟨u, hu, hu1, hu2, hueq⟩ := ih hrest (by
          rcases hx with ⟨u, hu, hu1, hu2⟩
          rcases List.mem_cons.mp hu with rfl | hmem
          · rw [hlook] at hu1; exact absurd hu1 (by simp)
          · exact ⟨u, hmem, hu1, hu2⟩)
        refine ⟨u, List.mem_cons_of_mem t hu, hu1, hu2, ?_⟩
        rw [show firstFailure (t :: rest) approvals registry =
          firstFailure rest approvals registry from by
            simp [firstFailure, validate_tool_authorization, hlook]]
        exact hueq
      | sensitive =>
        cases happ : approvals.lookup t with
        | none =>
          refine ⟨t, List.mem_cons_self t rest, hlook, happ, ?_⟩
          simp [firstFailure, validate_tool_authorization, hlook, happ]
        | some ap =>
          obtain ⟨u, hu, hu1, hu2, hueq⟩ := ih hrest (by
            rcases hx with ⟨u, hu, hu1, hu2⟩
            rcases List.mem_cons.mp hu with rfl | hmem
            · rw [happ] at hu2; exact absurd hu2 (by simp)
            · exact ⟨u, hmem, hu1, hu2⟩)
          refine ⟨u, List.mem_cons_of_mem t hu, hu1, hu2, ?_⟩
          rw [show firstFailure (t :: rest) approvals registry =
            firstFailure rest approvals registry from by
              simp [firstFailure, validate_tool_authorization, hlook, happ]]
          exact hueq

/-- C3: if some tool of the target set is SENSITIVE without an approval
record (and the target set is registry-known), `update_agent_tools` with
`validate_classification = true` rejects the entire update atomically —
the store is exactly as before — with `success = false` and an error
naming an offending tool and its tier. -/
theorem update_agent_tools_atomic_reject (st : AuthStore) (agent : String)
    (tools : List String) (reason : String) (registry : List (String × Tier))
    (approvals : List (String × Approval)) (corr : String) (now : Nat)
    (hreg : ∀ t ∈ tools, (registry.lookup t).isSome = true)
    (hx : ∃ t ∈ tools, registry.lookup t = some .sensitive ∧
      approvals.lookup t = none) :
    (update_agent_tools agent tools reason true registry approvals corr now
      st).2 = st ∧
    (update_agent_tools agent tools reason true registry approvals corr now
      st).1.success = false ∧
    ∃ t ∈ tools, registry.lookup t = some .sensitive ∧
      approvals.lookup t = none ∧
      containsS ((update_agent_tools agent tools reason true registry
        approvals corr now st).1.error.getD "") t = true ∧
      containsS ((update_agent_tools agent tools reason true registry
        approvals corr now st).1.error.getD "") "SENSITIVE" = true ∧
      containsS ((update_agent_tools agent tools reason true registry
        approvals corr now st).1.error.getD "") "approval" = true := by
  obtain ⟨t, ht, h1, h2, heq⟩ := firstFailure_sensitive tools approvals
    registry hreg hx
  have herr : (update_agent_tools agent tools reason true registry approvals
      corr now st).1.error =
      some ("Tool " ++ t ++
        " classified SENSITIVE - approval record required") := by
    simp [update_agent_tools, heq]
  refine ⟨by simp [update_agent_tools, heq], by simp [update_agent_tools, heq],
    t, ht, h1, h2, ?_, ?_, ?_⟩
  · refine containsS_of_split _ _ "Tool ".data
      " classified SENSITIVE - approval record required".data ?_
    rw [herr]
    simp only [Option.getD_some, String.data_append, List.append_assoc]
  · refine containsS_of_split _ _
      ("Tool ".data ++ (t.data ++ " classified ".data))
      " - approval record required".data ?_
    rw [herr]
    simp only [Option.getD_some, String.data_append, List.append_assoc]
    exact congrArg (fun x => "Tool ".data ++ (t.data ++ x)) (by decide)
  · refine containsS_of_split _ _
      ("Tool ".data ++ (t.data ++ " classified SENSITIVE - ".data))
      " record required".data ?_
    rw [herr]
    simp only [Option.getD_some, String.data_append, List.append_assoc]
    exact congrArg (fun x => "Tool ".data ++ (t.data ++ x)) (by decide)

/-- Witness for C3: adding `update_customer_record` (SENSITIVE, no
approval) alongside a LOW tool on the fresh store is rejected atomically. -/
theorem update_agent_tools_atomic_reject_witness :
    (∀ t ∈ (["get_product_info", "update_customer_record"] : List String),
      (regFix.lookup t).isSome = true) ∧
    (update_agent_tools "test-agent"
      ["get_product_info", "update_customer_record"]
      "Adding customer record updates" true regFix [] "corr-1" 0
      clear_authorization_store).2 = clear_authorization_store ∧
    (update_agent_tools "test-agent"
      ["get_product_info", "update_customer_record"]
      "Adding customer record updates" true regFix [] "corr-1" 0
      clear_authorization_store).1.success = false ∧
    ∃ t ∈ (["get_product_info", "update_customer_record"] : List String),
      regFix.lookup t = some .sensitive ∧
      (([] : List (String × Approval)).lookup t = none) ∧
      containsS ((update_agent_tools "test-agent"
        ["get_product_info", "update_customer_record"]
        "Adding customer record updates" true regFix [] "corr-1" 0
        clear_authorization_store).1.error.getD "") t = true ∧
      containsS ((update_agent_tools "test-agent"
        ["get_product_info", "update_customer_record"]
        "Adding customer record updates" true regFix [] "corr-1" 0
        clear_authorization_store).1.error.getD "") "SENSITIVE" = true ∧
      containsS ((update_agent_tools "test-agent"
        ["get_product_info", "update_customer_record"]
        "Adding customer record updates" true regFix [] "corr-1" 0
        clear_authorization_store).1.error.getD "") "approval" = true :=
  ⟨by decide,
   update_agent_tools_atomic_reject clear_authorization_store "test-agent"
     ["get_product_info", "update_customer_record"]
     "Adding customer record updates" regFix [] "corr-1" 0 (by decide)
     ⟨"update_customer_record", by decide, by decide, by decide⟩⟩

/-! ### C2 — audit-event integrity hashes -/

theorem sortByKey_reqFields (a : ReqArgs) :
    sortByKey (reqFieldsOf a) =
      [("correlation_id", .s a.correlation_id),
       ("event_type", .s "revocation_requested"),
       ("initiated_by", .s a.initiated_by), ("reason", .s a.reason),
       ("revocation_id", .s a.revocation_id), ("scope", .s a.scope),
       ("subject_id", .s a.subject_id), ("subject_type", .s a.subject_type),
       ("timestamp", .s a.timestamp)] := rfl

/-- Shape of the canonical serialization of a request event: literal
segments interleaved with the quote-wrapped escaped field values. -/
theorem canonicalJsonData_reqFields (a : ReqArgs) :
    canonicalJsonData (reqFieldsOf a) = interQuoted reqLits (reqVals a) := by
  simp only [canonicalJsonData, dumpsWith, sortByKey_reqFields, List.map_cons,
    List.map_nil, memberData, joinSep, quoteData, dumpJVal, interQuoted,
    reqLits, reqVals, List.append_assoc, List.cons_append, List.nil_append]
  rfl

theorem append_quote_inj {u v r t : List Char}
    (hu : ∀ c ∈ u, c ≠ Char.ofNat 34) (hv : ∀ c ∈ v, c ≠ Char.ofNat 34)
    (h : u ++ Char.ofNat 34 :: r = v ++ Char.ofNat 34 :: t) :
    u = v ∧ r = t := by
  induction u generalizing v with
  | nil =>
    cases v with
    | nil => simpa using h
    | cons b bs =>
      simp only [List.nil_append, List.cons_append, List.cons.injEq] at h
      exact absurd h.1.symm (hv b (List.mem_cons_self b bs))
  | cons a as ih =>
    cases v with
    | nil =>
      simp only [List.nil_append, List.cons_append, List.cons.injEq] at h
      exact absurd h.1 (hu a (List.mem_cons_self a as))
    | cons b bs =>
      simp only [List.cons_append, List.cons.injEq] at h
      obtain ⟨h1, h2⟩ :=
        ih (fun c hc => hu c (List.mem_cons_of_mem a hc))
          (fun c hc => hv c (List.mem_cons_of_mem b hc)) h.2
      exact ⟨by rw [h.1, h1], h2⟩

/-- `interQuoted` is injective in the payload chunks, as long as the
chunks are quote-free and the literal list is long enough. -/
theorem interQuoted_inj :
    ∀ (vs1 vs2 ls : List (List Char)), vs1.length = vs2.length →
    vs1.length < ls.length →
    (∀ v ∈ vs1, ∀ c ∈ v, c ≠ Char.ofNat 34) →
    (∀ v ∈ vs2, ∀ c ∈ v, c ≠ Char.ofNat 34) →
    interQuoted ls vs1 = interQuoted ls vs2 → vs1 = vs2 := by
  intro vs1
  induction vs1 with
  | nil =>
    intro vs2 ls hlen _ _ _ _
    exact (List.length_eq_zero.mp hlen.symm).symm
  | cons v1 rest1 ih =>
    intro vs2 ls hlen hls h1 h2 heq
    cases vs2 with
    | nil => simp at hlen
    | cons v2 rest2 =>
      cases ls with
      | nil => simp at hls
      | cons l ls2 =>
        simp only [interQuoted] at heq
        have heq2 := List.append_cancel_left heq
        simp only [List.cons.injEq, true_and] at heq2
        obtain ⟨hv, hrest⟩ := append_quote_inj
          (h1 v1 (List.mem_cons_self v1 rest1))
          (h2 v2 (List.mem_cons_self v2 rest2)) heq2
        have := ih rest2 ls2 (by simpa using hlen) (by simpa using hls)
          (fun v hv2 => h1 v (List.mem_cons_of_mem v1 hv2))
          (fun v hv2 => h2 v (List.mem_cons_of_mem v2 hv2)) hrest
        rw [hv, this]

/-- A passthrough character is serialized as itself. -/
theorem escChar_plain {c : Char} (h : plainChar c = true) : escChar c = [c] := by
  simp only [plainChar, Bool.and_eq_true, decide_eq_true_eq] at h
  obtain ⟨⟨⟨hge, hlt⟩, h34⟩, h92⟩ := h
  unfold escChar
  dsimp only
  split_ifs <;> first | rfl | (exfalso; omega)

/-- Escaping is the identity on passthrough strings. -/
theorem jsonEscape_plain {s : List Char} (h : s.all plainChar = true) :
    jsonEscape s = s := by
  induction s with
  | nil => rfl
  | cons c rest ih =>
    simp only [List.all_cons, Bool.and_eq_true] at h
    have hstep : jsonEscape (c :: rest) = escChar c ++ jsonEscape rest := by
      simp [jsonEscape]
    rw [hstep, escChar_plain h.1, ih h.2]
    rfl

/-- Passthrough strings contain no quote character. -/
theorem plain_qFree {s : List Char} (h : s.all plainChar = true) :
    ∀ c ∈ s, c ≠ Char.ofNat 34 := by
  intro c hc heq
  have := (List.all_eq_true.mp h) c hc
  simp only [plainChar, Bool.and_eq_true, decide_eq_true_eq] at this
  subst heq
  exact this.1.2 (by decide)

theorem char_toNat_inj : Function.Injective Char.toNat :=
  fun _ _ h => Char.ext (UInt32.ext h)

theorem str_data_inj {x y : String} (h : x.data = y.data) : x = y := by
  cases x
  cases y
  exact congrArg String.mk h

/-- The escaped field values of a plain-field request event are the raw
field data. -/
theorem reqVals_eq_of_plain (a : ReqArgs) (ha : reqPlain a = true) :
    reqVals a = [a.correlation_id.data, a.initiated_by.data, a.reason.data,
      a.revocation_id.data, a.scope.data, a.subject_id.data,
      a.subject_type.data, a.timestamp.data] := by
  simp only [reqPlain, Bool.and_eq_true] at ha
  obtain ⟨⟨⟨⟨⟨⟨⟨h1, h2⟩, h3⟩, h4⟩, h5⟩, h6⟩, h7⟩, h8⟩ := ha
  simp only [reqVals, jsonEscape_plain h1, jsonEscape_plain h2,
    jsonEscape_plain h3, jsonEscape_plain h4, jsonEscape_plain h5,
    jsonEscape_plain h6, jsonEscape_plain h7, jsonEscape_plain h8]

/-- The canonical serialization of a request event is injective in the
argument tuple, for passthrough field values. -/
theorem canonicalJsonData_req_inj (a b : ReqArgs) (ha : reqPlain a = true)
    (hb : reqPlain b = true) (hne : a ≠ b) :
    canonicalJsonData (reqFieldsOf a) ≠ canonicalJsonData (reqFieldsOf b) := by
  intro heq
  apply hne
  rw [canonicalJsonData_reqFields, canonicalJsonData_reqFields,
    reqVals_eq_of_plain a ha, reqVals_eq_of_plain b hb] at heq
  have hqa : ∀ v ∈ [a.correlation_id.data, a.initiated_by.data, a.reason.data,
      a.revocation_id.data, a.scope.data, a.subject_id.data,
      a.subject_type.data, a.timestamp.data], ∀ c ∈ v, c ≠ Char.ofNat 34 := by
    simp only [reqPlain, Bool.and_eq_true] at ha
    obtain ⟨⟨⟨⟨⟨⟨⟨h1, h2⟩, h3⟩, h4⟩, h5⟩, h6⟩, h7⟩, h8⟩ := ha
    intro v hv
    simp only [List.mem_cons, List.not_mem_nil, or_false] at hv
    rcases hv with rfl | rfl | rfl | rfl | rfl | rfl | rfl | rfl
    · exact plain_qFree h7
    · exact plain_qFree h6
    · exact plain_qFree h5
    · exact plain_qFree h1
    · exact plain_qFree h4
    · exact plain_qFree h3
    · exact plain_qFree h2
    · exact plain_qFree h8
  have hqb : ∀ v ∈ [b.correlation_id.data, b.initiated_by.data, b.reason.data,
      b.revocation_id.data, b.scope.data, b.subject_id.data,
      b.subject_type.data, b.timestamp.data], ∀ c ∈ v, c ≠ Char.ofNat 34 := by
    simp only [reqPlain, Bool.and_eq_true] at hb
    obtain ⟨⟨⟨⟨⟨⟨⟨h1, h2⟩, h3⟩, h4⟩, h5⟩, h6⟩, h7⟩, h8⟩ := hb
    intro v hv
    simp only [List.mem_cons, List.not_mem_nil, or_false] at hv
    rcases hv with rfl | rfl | rfl | rfl | rfl | rfl | rfl | rfl
    · exact plain_qFree h7
    · exact plain_qFree h6
    · exact plain_qFree h5
    · exact plain_qFree h1
    · exact plain_qFree h4
    · exact plain_qFree h3
    · exact plain_qFree h2
    · exact plain_qFree h8
  have hlist := interQuoted_inj _ _ reqLits (by simp) (by simp [reqLits]) hqa
    hqb heq
  simp only [List.cons.injEq, and_true] at hlist
  obtain ⟨e1, e2, e3, e4, e5, e6, e7, e8⟩ := hlist
  exact ReqArgs.ext (str_data_inj e4) (str_data_inj e7) (str_data_inj e6)
    (str_data_inj e5) (str_data_inj e3) (str_data_inj e2) (str_data_inj e1)
    (str_data_inj e8)

theorem plain_ascii {s : List Char} (h : s.all plainChar = true) :
    asciiData s = true := by
  simp only [asciiData, List.all_eq_true, decide_eq_true_eq] at *
  intro c hc
  have := h c hc
  simp only [plainChar, Bool.and_eq_true, decide_eq_true_eq] at this
  omega

theorem asciiData_interQuoted {ls vs : List (List Char)}
    (hl : ∀ l ∈ ls, asciiData l = true)
    (hv : ∀ v ∈ vs, asciiData v = true) :
    asciiData (interQuoted ls vs) = true := by
  induction ls generalizing vs with
  | nil => rfl
  | cons l ls2 ih =>
    cases vs with
    | nil => exact hl l (List.mem_cons_self l ls2)
    | cons v vs2 =>
      have h1 := hl l (List.mem_cons_self l ls2)
      have h2 := hv v (List.mem_cons_self v vs2)
      have h3 := ih (fun x hx => hl x (List.mem_cons_of_mem l hx))
        (fun x hx => hv x (List.mem_cons_of_mem v hx))
      simp only [asciiData, interQuoted, List.all_append, List.all_cons,
        Bool.and_eq_true] at h1 h2 h3 ⊢
      exact ⟨h1, by decide, h2, by decide, h3⟩

/-- The canonical serialization of a plain-field request event is pure
ASCII. -/
theorem reqSer_ascii (a : ReqArgs) (ha : reqPlain a = true) :
    asciiData (canonicalJsonData (reqFieldsOf a)) = true := by
  rw [canonicalJsonData_reqFields, reqVals_eq_of_plain a ha]
  refine asciiData_interQuoted (by decide) ?_
  simp only [reqPlain, Bool.and_eq_true] at ha
  obtain ⟨⟨⟨⟨⟨⟨⟨h1, h2⟩, h3⟩, h4⟩, h5⟩, h6⟩, h7⟩, h8⟩ := ha
  intro v hv
  simp only [List.mem_cons, List.not_mem_nil, or_false] at hv
  rcases hv with rfl | rfl | rfl | rfl | rfl | rfl | rfl | rfl
  · exact plain_ascii h7
  · exact plain_ascii h6
  · exact plain_ascii h5
  · exact plain_ascii h1
  · exact plain_ascii h4
  · exact plain_ascii h3
  · exact plain_ascii h2
  · exact plain_ascii h8

theorem utf8Data_ascii {l : List Char} (h : asciiData l = true) :
    utf8Data l = l.map fun c => c.toNat := by
  induction l with
  | nil => rfl
  | cons c rest ih =>
    simp only [asciiData, List.all_cons, Bool.and_eq_true,
      decide_eq_true_eq] at h
    have hstep : utf8Data (c :: rest) = utf8Char c ++ utf8Data rest := by
      simp [utf8Data]
    rw [hstep, show utf8Char c = [c.toNat] from by simp [utf8Char, h.1],
      ih h.2]
    rfl

/-- UTF-8 encoding is injective on ASCII character lists. -/
theorem utf8Data_inj_ascii {l1 l2 : List Char} (h1 : asciiData l1 = true)
    (h2 : asciiData l2 = true) (h : utf8Data l1 = utf8Data l2) : l1 = l2 := by
  rw [utf8Data_ascii h1, utf8Data_ascii h2] at h
  exact List.map_injective_iff.mpr char_toNat_inj h

theorem sha256Nat_lt (m : List Nat) : sha256Nat m < 2 ^ 256 := by
  simp only [sha256Nat]
  exact Nat.mod_lt _ (by positivity)

/-- C2 (amended): every audit-event constructor seals `integrity_hash` as
the hex SHA-256 of the canonical serialization (keys sorted, Python
`json.dumps` default separators — a space after `,` and `:`) of all other
fields; identical field values always yield identical hashes; and two
request events with passthrough field values that differ in any field have
different serializations — hence different hash inputs — so their hashes
can only coincide through an outright SHA-256 collision on distinct
messages. -/
theorem construct_event_integrity_spec :
    (∀ a : ReqArgs,
      (construct_revocation_request_event a).integrity_hash =
        ⟨sha256hexData (utf8Data (canonicalJsonData (reqFieldsOf a)))⟩) ∧
    (∀ rid lat slam corr ts,
      (construct_revocation_propagated_event rid lat slam corr
        ts).integrity_hash =
        ⟨sha256hexData (utf8Data (canonicalJsonData
          (propFieldsOf rid lat slam corr ts)))⟩) ∧
    (∀ sty si act rid corr ts,
      (construct_revocation_access_denied_event sty si act rid corr
        ts).integrity_hash =
        ⟨sha256hexData (utf8Data (canonicalJsonData
          (deniedFieldsOf sty si act rid corr ts)))⟩) ∧
    (∀ f1 f2 : List (String × JVal), f1 = f2 →
      (sealEvent f1).integrity_hash = (sealEvent f2).integrity_hash) ∧
    (∀ a b : ReqArgs, reqPlain a = true → reqPlain b = true → a ≠ b →
      canonicalJsonData (reqFieldsOf a) ≠ canonicalJsonData (reqFieldsOf b)) ∧
    (∀ a b : ReqArgs, reqPlain a = true → reqPlain b = true → a ≠ b →
      (construct_revocation_request_event a).integrity_hash =
        (construct_revocation_request_event b).integrity_hash →
      utf8Data (canonicalJsonData (reqFieldsOf a)) ≠
        utf8Data (canonicalJsonData (reqFieldsOf b)) ∧
      sha256Nat (utf8Data (canonicalJsonData (reqFieldsOf a))) =
        sha256Nat (utf8Data (canonicalJsonData (reqFieldsOf b)))) := by
  refine ⟨fun a => rfl, fun rid lat slam corr ts => rfl,
    fun sty si act rid corr ts => rfl, fun f1 f2 h => by rw [h],
    canonicalJsonData_req_inj, ?_⟩
  intro a b ha hb hne hh
  constructor
  · intro hmsg
    exact canonicalJsonData_req_inj a b ha hb hne
      (utf8Data_inj_ascii (reqSer_ascii a ha) (reqSer_ascii b hb) hmsg)
  · have hdata : sha256hexData (utf8Data (canonicalJsonData
        (reqFieldsOf a))) =
        sha256hexData (utf8Data (canonicalJsonData (reqFieldsOf b))) :=
      congrArg String.data hh
    have h64 : (16 : Nat) ^ 64 = 2 ^ 256 := by norm_num
    simp only [sha256hexData] at hdata
    exact toHexData_injective (h64 ▸ sha256Nat_lt _) (h64 ▸ sha256Nat_lt _)
      hdata

/-- Witness for C2 at two concrete request events differing only in
`reason`. -/
theorem construct_event_integrity_spec_witness :
    (reqPlain reqArgsFix = true ∧
      reqPlain { reqArgsFix with reason := "x" } = true ∧
      reqArgsFix ≠ { reqArgsFix with reason := "x" }) ∧
    (sealEvent (reqFieldsOf reqArgsFix)).integrity_hash =
      (sealEvent (reqFieldsOf reqArgsFix)).integrity_hash ∧
    canonicalJsonData (reqFieldsOf reqArgsFix) ≠
      canonicalJsonData (reqFieldsOf { reqArgsFix with reason := "x" }) :=
  ⟨⟨by decide, by decide, by decide⟩,
   construct_event_integrity_spec.2.2.2.1 (reqFieldsOf reqArgsFix)
     (reqFieldsOf reqArgsFix) rfl,
   construct_event_integrity_spec.2.2.2.2.1 reqArgsFix
     { reqArgsFix with reason := "x" } (by decide) (by decide) (by decide)⟩

set_option maxRecDepth 1000000 in
/-- Counterexample to C2 as stated: (a) the sealed hash is **not** the
SHA-256 of the whitespace-free serialization the claim describes (the
implementation, pinned by its own test, hashes the `json.dumps` default
rendering with spaces after separators); (b) absolute hash-injectivity is
false: by pigeonhole over the 2^256 possible digests there exist two
events differing only in `reason` with equal `integrity_hash`. -/
theorem construct_event_integrity_counterexample :
    (construct_revocation_request_event reqArgsFix).integrity_hash ≠
      ⟨sha256hexData (utf8Data (compactJsonData (reqFieldsOf reqArgsFix)))⟩ ∧
    ¬ (∀ r1 r2 : String, r1 ≠ r2 →
      (construct_revocation_request_event
        { reqArgsFix with reason := r1 }).integrity_hash ≠
      (construct_revocation_request_event
        { reqArgsFix with reason := r2 }).integrity_hash) := by
  constructor
  · decide
  · intro hall
    obtain ⟨k1, k2, hkne, hfeq⟩ :=
      Finite.exists_ne_map_eq_of_infinite fun k : ℕ =>
        (⟨sha256Nat (utf8Data (canonicalJsonData (reqFieldsOf
            { reqArgsFix with
              reason := ⟨List.replicate k (Char.ofNat 97)⟩ }))),
          sha256Nat_lt _⟩ : Fin (2 ^ 256))
    refine hall ⟨List.replicate k1 (Char.ofNat 97)⟩
      ⟨List.replicate k2 (Char.ofNat 97)⟩ ?_ ?_
    · intro hs
      apply hkne
      have := congrArg (fun s : String => s.data.length) hs
      simpa using this
    · have hdig := congrArg Fin.val hfeq
      exact congrArg (fun n : Nat => (⟨toHexData n 64⟩ : String)) hdig

end Governance
